import Mathlib

set_option maxRecDepth 100000

/-!
Verification of the Decibel CAP alert ingestion pipeline.

This file gives a shallow embedding of the backend code that ingests
Common Alerting Protocol feeds (src/backend/services/capParser.ts,
src/backend/services/capScheduler.ts, src/backend/utils/cleanAlertData.ts,
the CAPAlert model convertToGeoJSON method, the cap-alerts Express router
and the cap-sources router), and proves or refutes the claims of the
specification against it.

JavaScript numbers are modelled by rationals: every concrete input in
this development has small exact decimal coordinates, on which JavaScript
double arithmetic coincides with exact rational arithmetic.  Dates are
modelled by integers (milliseconds).  NaN is modelled by Option: a parse
returning none stands for NaN.
-/

/-- Numeric value of a list of decimal digit characters, most significant
first, as produced by a left fold. -/
def digitsToNat (cs : List Char) : Nat :=
  cs.foldl (fun acc c => acc * 10 + (c.toNat - 48)) 0

/-- Signed integer read from the head of a character list, used for the
exponent part of a float literal.  JavaScript parseFloat treats a missing
exponent digit sequence as no exponent at all, hence the 0 fallback. -/
def parseSignedInt (cs : List Char) : Int :=
  let sign : Int := match cs with
    | '-' :: _ => -1
    | _ => 1
  let cs1 : List Char := match cs with
    | '-' :: t => t
    | '+' :: t => t
    | _ => cs
  let ds := cs1.takeWhile (fun c => c.isDigit)
  if ds.isEmpty then 0 else sign * (digitsToNat ds : Int)

/-- Exponent suffix of a float literal: e or E followed by a signed digit
run; anything else contributes exponent 0. -/
def parseExponent (cs : List Char) : Int :=
  match cs with
  | 'e' :: t => parseSignedInt t
  | 'E' :: t => parseSignedInt t
  | _ => 0

/-- Model of JavaScript parseFloat restricted to finite results: leading
whitespace is skipped, then an optional sign, a digit run, an optional
fractional digit run and an optional exponent are read; the longest valid
numeric head is converted and the rest of the string is ignored.  none
stands for NaN (no digits at all).  JavaScript parseFloat additionally
accepts Infinity literals; those are not modelled, which is faithful for
every use in this code base: convertToGeoJSON immediately drops non finite
values with an isFinite guard, and no claim input involves them. -/
def parseFloatFinite (s : String) : Option ℚ :=
  let cs0 := s.data.dropWhile (fun c => c.isWhitespace)
  let sign : ℚ := match cs0 with
    | '-' :: _ => -1
    | _ => 1
  let cs1 : List Char := match cs0 with
    | '-' :: t => t
    | '+' :: t => t
    | _ => cs0
  let intDigits := cs1.takeWhile (fun c => c.isDigit)
  let rest1 := cs1.dropWhile (fun c => c.isDigit)
  let fracDigits : List Char := match rest1 with
    | '.' :: t => t.takeWhile (fun c => c.isDigit)
    | _ => []
  let rest2 : List Char := match rest1 with
    | '.' :: t => t.dropWhile (fun c => c.isDigit)
    | _ => rest1
  if intDigits.isEmpty && fracDigits.isEmpty then none
  else
    let mantissa : ℚ :=
      (digitsToNat intDigits : ℚ) + (digitsToNat fracDigits : ℚ) / ((10 : ℚ) ^ fracDigits.length)
    some (sign * mantissa * (10 : ℚ) ^ parseExponent rest2)

/-- Helper for splitWhitespace: accumulates the current token in reverse. -/
def wsTokens : List Char → List Char → List String
  | [], acc => if acc.isEmpty then [] else [String.mk acc.reverse]
  | c :: rest, acc =>
    if c.isWhitespace then
      if acc.isEmpty then wsTokens rest [] else String.mk acc.reverse :: wsTokens rest []
    else wsTokens rest (c :: acc)

/-- Model of the JavaScript split on a whitespace-run regex as applied to a
trimmed string: the list of maximal non-whitespace runs.  On the empty
string JavaScript yields a singleton empty token where this yields the
empty list; the difference is unobservable downstream because an empty
token parses to NaN and is dropped. -/
def splitWhitespace (s : String) : List String :=
  wsTokens s.data []

/-- A point is a pair of rational coordinates, in GeoJSON order: first
component longitude (x), second latitude (y). -/
abbrev Point := ℚ × ℚ

/-- Orientation value of the triangle a b c, from cleanAlertData.ts
doSegmentsIntersect (the inner ccw arrow function). -/
def ccw (a b c : Point) : ℚ :=
  (c.2 - a.2) * (b.1 - a.1) - (b.2 - a.2) * (c.1 - a.1)

/-- Bounding-box containment test from cleanAlertData.ts isPointOnSegment. -/
def isPointOnSegment (a b p : Point) : Bool :=
  decide (min a.1 b.1 ≤ p.1) && decide (p.1 ≤ max a.1 b.1) &&
  decide (min a.2 b.2 ≤ p.2) && decide (p.2 ≤ max a.2 b.2)

/-- Segment intersection test from cleanAlertData.ts doSegmentsIntersect.
The JavaScript body is a chain of early returns, which is exactly this
disjunction evaluated in order. -/
def doSegmentsIntersect (p1 p2 p3 p4 : Point) : Bool :=
  (decide (ccw p1 p2 p3 * ccw p1 p2 p4 < 0) && decide (ccw p3 p4 p1 * ccw p3 p4 p2 < 0)) ||
  (decide (ccw p1 p2 p3 = 0) && isPointOnSegment p1 p2 p3) ||
  (decide (ccw p1 p2 p4 = 0) && isPointOnSegment p1 p2 p4) ||
  (decide (ccw p3 p4 p1 = 0) && isPointOnSegment p3 p4 p1) ||
  (decide (ccw p3 p4 p2 = 0) && isPointOnSegment p3 p4 p2)

/-- Edge number i of a ring whose first n points form the cycle: the pair
of its endpoints, with the wrap-around index computation of
isValidPolygonRing in cleanAlertData.ts. -/
def ringEdge (ring : List Point) (n i : Nat) : Point × Point :=
  (ring.getD i (0, 0), ring.getD ((i + 1) % n) (0, 0))

/-- The pair of edge indices i and j is compared by the nested loops of
isValidPolygonRing: the inner loop starts at i + 2 and the single
adjacent wrap-around pair 0 and n - 1 is skipped. -/
def checkedEdgePair (n i j : Nat) : Bool :=
  decide (i + 2 ≤ j) && !(decide (i = 0) && decide (j = n - 1))

/-- The double loop of cleanAlertData.ts isValidPolygonRing: some checked
pair of non-adjacent edges intersects. -/
def hasSelfIntersection (ring : List Point) : Bool :=
  let n := ring.length - 1
  (List.range n).any fun i =>
    (List.range n).any fun j =>
      checkedEdgePair n i j &&
      doSegmentsIntersect (ringEdge ring n i).1 (ringEdge ring n i).2
        (ringEdge ring n j).1 (ringEdge ring n j).2

/-- cleanAlertData.ts isValidPolygonRing: a ring shorter than 4 points is
invalid, otherwise it is valid when no checked pair of edges intersects. -/
def isValidPolygonRing (ring : List Point) : Bool :=
  decide (4 ≤ ring.length) && !hasSelfIntersection ring

/-- cleanAlertData.ts tryFixPolygonRing: reverse the winding order and
keep the reversed ring when it validates, otherwise give up. -/
def tryFixPolygonRing (ring : List Point) : Option (List Point) :=
  if ring.length < 4 then none
  else if isValidPolygonRing ring.reverse then some ring.reverse
  else none

/-- GeoJSON geometry as produced by the CAPAlert model convertToGeoJSON
method: either a Polygon whose coordinates are a list of rings, or a
MultiPolygon whose coordinates are a list of polygons. -/
inductive GeoJson where
  | polygon (coordinates : List (List Point))
  | multiPolygon (coordinates : List (List (List Point)))
deriving DecidableEq

/-- The token-pairing loop of convertToGeoJSON (models/CAPAlert schema
method, stored in src/backend/models/User.ts): tokens are consumed two at
a time, the first of each pair read as latitude and the second as
longitude, and a pair is kept as a [lon, lat] point only when both parse
to finite numbers inside the latitude and longitude ranges. -/
def parsePolygonPoints : List String → List Point
  | t1 :: t2 :: rest =>
    (match parseFloatFinite t1, parseFloatFinite t2 with
     | some lat, some lon =>
       if -90 ≤ lat ∧ lat ≤ 90 ∧ -180 ≤ lon ∧ lon ≤ 180 then
         (lon, lat) :: parsePolygonPoints rest
       else parsePolygonPoints rest
     | _, _ => parsePolygonPoints rest)
  | _ => []

/-- Ring closing step of convertToGeoJSON: when the first and last points
differ in either coordinate the first point is appended again. -/
def closeRing (ring : List Point) : List Point :=
  match ring.head?, ring.getLast? with
  | some h, some l => if h.1 ≠ l.1 ∨ h.2 ≠ l.2 then ring ++ [h] else ring
  | _, _ => ring

/-- Decoding of one CAP polygon string by convertToGeoJSON: trim, split on
whitespace runs, pair tokens into points, and keep the closed ring when at
least 3 points survive. -/
def ringFromPolygonString (s : String) : Option (List Point) :=
  let ring := parsePolygonPoints (splitWhitespace s.trim)
  if 3 ≤ ring.length then some (closeRing ring) else none

/-- Validation pass of convertToGeoJSON: keep valid rings, try the
reversal repair on invalid ones, drop rings that stay invalid. -/
def validateRings (coords : List (List Point)) : List (List Point) :=
  coords.filterMap fun ring =>
    if isValidPolygonRing ring then some ring else tryFixPolygonRing ring

/-- The polygon branch of the CAPAlert convertToGeoJSON method, for one
area: decode every polygon string, validate, and emit a Polygon for one
surviving ring or a MultiPolygon for several; none when nothing survives.
The circle branch of the method is independent of the polygon branch and
is not involved in any claim input, so it is not modelled. -/
def convertToGeoJSON (polygonStrings : List String) : Option GeoJson :=
  let coords := polygonStrings.filterMap ringFromPolygonString
  if coords.isEmpty then none
  else
    let validCoords := validateRings coords
    if validCoords.isEmpty then none
    else if validCoords.length = 1 then some (GeoJson.polygon validCoords)
    else some (GeoJson.multiPolygon (validCoords.map fun ring => [ring]))

/-! ## Scheduler and alert store model

The scheduler (src/backend/services/capScheduler.ts) reconciles the list
of alerts returned by the parser against the alert store.  The store is
modelled as a list of stored alert records for a single source; the
sourceId component of every database filter is therefore constant and
omitted.  Only the fields that the reconciliation logic reads or writes
are modelled. -/

/-- A parsed alert as handed to the scheduler by
capParser.fetchAlertsFromSource: the identifier, the sent timestamp, the
expiry instants of its info blocks, and the raw polygon strings of its
(flattened) areas. -/
structure ParsedAlert where
  identifier : String
  sent : Int
  expires : List Int
  polygon : List String
deriving DecidableEq

/-- capParser.ts isAlertActive: some info block expires after now. -/
def isAlertActive (a : ParsedAlert) (now : Int) : Bool :=
  a.expires.any fun e => decide (now < e)

/-- A stored alert record (CAPAlert document).  The geoJson field stands
for the geometry of the first area, which is the only one any claim
exercises. -/
structure StoredAlert where
  identifier : String
  sent : Int
  expires : List Int
  isActive : Bool
  geoJson : Option GeoJson
  fetchedAt : Int
deriving DecidableEq

/-- The CAPAlert virtual isCurrentlyActive: some info block expires after
now. -/
def isCurrentlyActive (r : StoredAlert) (now : Int) : Bool :=
  r.expires.any fun e => decide (now < e)

/-- Events broadcast over the socket.  The scheduler emits cap-alert-new,
the refresh route emits cap-alert-update; no expire event exists anywhere
in the code base, but the constructor is included so that its absence
from every emission can be stated. -/
inductive AlertEvent where
  | newAlert (identifier : String)
  | updateAlert (identifier : String)
  | expireAlert (identifier : String)
deriving DecidableEq

/-- True exactly for cap-alert-new events. -/
def AlertEvent.isNew : AlertEvent → Bool
  | .newAlert _ => true
  | _ => false

/-- Identifiers of all stored alerts, in store order
(capScheduler.getExistingAlertIdentifiers). -/
def storeIds (store : List StoredAlert) : List String :=
  store.map (·.identifier)

/-- findOne on the identifier (the sourceId filter component is the
constant single source). -/
def lookupAlert (store : List StoredAlert) (id : String) : Option StoredAlert :=
  store.find? fun r => r.identifier = id

/-- updateOne semantics: rewrite the first stored record carrying the
identifier, leave everything else in place. -/
def updateFirst (store : List StoredAlert) (id : String) (f : StoredAlert → StoredAlert) :
    List StoredAlert :=
  match store with
  | [] => []
  | r :: rest => if r.identifier = id then f r :: rest else r :: updateFirst rest id f

/-- The record written for an alert by processBatch, both for the update
and for the insert path: the payload is first cleaned by cleanAlertData,
which strips every geoJson field, then fetchedAt and isActive are set.
For updates the info array of the document is replaced wholesale by the
cleaned one, so the stored geometry is gone until recomputed. -/
def cleanedRecord (a : ParsedAlert) (now : Int) : StoredAlert :=
  { identifier := a.identifier, sent := a.sent, expires := a.expires,
    isActive := isAlertActive a now, geoJson := none, fetchedAt := now }

/-- insertMany with ordered set to false: every document is attempted in
order; a document whose identifier already exists in the store hits the
unique index and is dropped while the rest continue, and the whole call
then reports failure.  Returns the new store, the successfully inserted
alerts in order, and the failure flag. -/
def insertLoop (news : List ParsedAlert) (now : Int) (store : List StoredAlert) :
    List StoredAlert × List ParsedAlert × Bool :=
  match news with
  | [] => (store, [], false)
  | a :: rest =>
    if (storeIds store).contains a.identifier then
      let r := insertLoop rest now store
      (r.1, r.2.1, true)
    else
      let r := insertLoop rest now (store ++ [cleanedRecord a now])
      (r.1, a :: r.2.1, r.2.2)

/-- The loop after a successful insertMany: for each freshly inserted
record, convertToGeoJSON is run, the record saved, and a cap-alert-new
event emitted. -/
def geoSaveLoop (inserted : List ParsedAlert) (store : List StoredAlert) :
    List StoredAlert × List AlertEvent :=
  match inserted with
  | [] => (store, [])
  | a :: rest =>
    let store1 := updateFirst store a.identifier
      fun r => { r with geoJson := convertToGeoJSON a.polygon }
    let r := geoSaveLoop rest store1
    (r.1, AlertEvent.newAlert a.identifier :: r.2)

/-- Result of one processBatch call. -/
structure BatchResult where
  store : List StoredAlert
  events : List AlertEvent
  newCount : Nat
  updatedCount : Nat
  errorCount : Nat

/-- capScheduler.processBatch: alerts already known (by the identifier
snapshot) become bulk updateOne operations, the rest are staged for
insertMany; after a fully successful insert each new record gets its
geometry and a cap-alert-new event, while a failed insert (duplicate key)
skips the whole geometry-and-event loop and counts the batch as errors. -/
def processBatch (batch : List ParsedAlert) (existingIdentifiers : List String)
    (store : List StoredAlert) (now : Int) : BatchResult :=
  let updates := batch.filter fun a => existingIdentifiers.contains a.identifier
  let news := batch.filter fun a => !existingIdentifiers.contains a.identifier
  let store1 := updates.foldl (fun s a => updateFirst s a.identifier fun _ => cleanedRecord a now) store
  let r := insertLoop news now store1
  if r.2.2 then
    { store := r.1, events := [], newCount := news.length,
      updatedCount := updates.length, errorCount := batch.length }
  else
    let g := geoSaveLoop r.2.1 r.1
    { store := g.1, events := g.2, newCount := news.length,
      updatedCount := updates.length, errorCount := 0 }

/-- Counters returned by processAlertsBatch. -/
structure CycleCounts where
  newCount : Nat
  updatedCount : Nat
  skippedCount : Nat
  errorCount : Nat
deriving DecidableEq

/-- Result of one processAlertsBatch call. -/
structure ProcessResult where
  store : List StoredAlert
  events : List AlertEvent
  counts : CycleCounts

/-- The skip test of capScheduler.processAlertsBatch: the alert is in the
identifier snapshot and the current stored record has the same sent
timestamp and the same active classification. -/
def skipCheck (snapshot : List String) (store : List StoredAlert) (a : ParsedAlert)
    (now : Int) : Bool :=
  snapshot.contains a.identifier &&
    match lookupAlert store a.identifier with
    | some ex => decide (ex.sent = a.sent) && decide (ex.isActive = isAlertActive a now)
    | none => false

/-- capScheduler BATCH_SIZE. -/
def BATCH_SIZE : Nat := 50

/-- The loop body of capScheduler.processAlertsBatch: alerts passing the
skip test are counted and dropped, the rest accumulate in a batch that is
flushed through processBatch at BATCH_SIZE and once more at the end. -/
def processLoop (alerts : List ParsedAlert) (snapshot : List String)
    (batch : List ParsedAlert) (store : List StoredAlert) (events : List AlertEvent)
    (counts : CycleCounts) (now : Int) : ProcessResult :=
  match alerts with
  | [] =>
    if batch.isEmpty then { store := store, events := events, counts := counts }
    else
      let r := processBatch batch snapshot store now
      { store := r.store, events := events ++ r.events,
        counts := { counts with
          newCount := counts.newCount + r.newCount,
          updatedCount := counts.updatedCount + r.updatedCount,
          errorCount := counts.errorCount + r.errorCount } }
  | a :: rest =>
    if skipCheck snapshot store a now then
      processLoop rest snapshot batch store events
        { counts with skippedCount := counts.skippedCount + 1 } now
    else
      let batch1 := batch ++ [a]
      if BATCH_SIZE ≤ batch1.length then
        let r := processBatch batch1 snapshot store now
        processLoop rest snapshot [] r.store (events ++ r.events)
          { counts with
            newCount := counts.newCount + r.newCount,
            updatedCount := counts.updatedCount + r.updatedCount,
            errorCount := counts.errorCount + r.errorCount } now
      else
        processLoop rest snapshot batch1 store events counts now

/-- capScheduler.processAlertsBatch for one source: the identifier
snapshot is taken, then the alerts are folded through the skip-or-batch
loop. -/
def processAlertsBatch (alerts : List ParsedAlert) (store : List StoredAlert)
    (now : Int) : ProcessResult :=
  processLoop alerts (storeIds store) [] store [] ⟨0, 0, 0, 0⟩ now

/-- The expired-bit repair of fetchAlertsFromSource (and of
cleanupOldAlerts): updateMany with filter isActive true and info.expires
below now, setting isActive false.  MongoDB evaluates a comparison on an
array-valued path existentially, so the filter matches every record in
which SOME info block has already expired.  Returns the new store and the
modified count. -/
def markExpired (store : List StoredAlert) (now : Int) : List StoredAlert × Nat :=
  (store.map fun r =>
      if r.isActive && r.expires.any (fun e => decide (e < now)) then
        { r with isActive := false }
      else r,
   (store.filter fun r => r.isActive && r.expires.any (fun e => decide (e < now))).length)

/-- Result of one scheduler fetch cycle. -/
structure FetchCycleResult where
  store : List StoredAlert
  events : List AlertEvent
  counts : CycleCounts
  expiredCount : Nat

/-- The store-facing tail of capScheduler.fetchAlertsFromSource: process
the parsed alerts in batches, then repair the expired bit.  The repair
emits nothing. -/
def fetchCycle (alerts : List ParsedAlert) (store : List StoredAlert)
    (now : Int) : FetchCycleResult :=
  let r := processAlertsBatch alerts store now
  let m := markExpired r.store now
  { store := m.1, events := r.events, counts := r.counts, expiredCount := m.2 }

/-- capScheduler OLD_ALERT_THRESHOLD: 30 days in milliseconds. -/
def OLD_ALERT_THRESHOLD : Int := 30 * 24 * 60 * 60 * 1000

/-- Result of one janitor pass. -/
structure CleanupResult where
  store : List StoredAlert
  events : List AlertEvent
  deletedCount : Nat
  expiredCount : Nat

/-- capScheduler.cleanupOldAlerts (the janitor): delete inactive records
whose expiry and fetch time both lie past the retention cutoff, then run
the same expired-bit repair.  No event is emitted. -/
def cleanupOldAlerts (store : List StoredAlert) (now : Int) : CleanupResult :=
  let cutoff := now - OLD_ALERT_THRESHOLD
  let kept := store.filter fun r =>
    !(!r.isActive && (r.expires.any fun e => decide (e < cutoff)) && decide (r.fetchedAt < cutoff))
  let m := markExpired kept now
  { store := m.1, events := [], deletedCount := store.length - kept.length,
    expiredCount := m.2 }

/-! ## Parser statistics, retry policy, HTTP routes and source registry -/

/-- The in-memory counters of CAPParserService (capParser.ts). -/
structure ParserStats where
  totalRequests : Nat
  successfulRequests : Nat
  failedRequests : Nat
  cacheHits : Nat
  htmlFallbacks : Nat
deriving DecidableEq

/-- The all-zero initial parser statistics. -/
def ParserStats.zero : ParserStats := ⟨0, 0, 0, 0, 0⟩

/-- Componentwise order on parser statistics. -/
def ParserStats.le (s t : ParserStats) : Prop :=
  s.totalRequests ≤ t.totalRequests ∧ s.successfulRequests ≤ t.successfulRequests ∧
  s.failedRequests ≤ t.failedRequests ∧ s.cacheHits ≤ t.cacheHits ∧
  s.htmlFallbacks ≤ t.htmlFallbacks

/-- The stats.totalRequests increment at the top of fetchCAPAlert. -/
def incTotalRequests (s : ParserStats) : ParserStats :=
  { s with totalRequests := s.totalRequests + 1 }

/-- The stats.failedRequests increment in the catch block of
fetchCAPAlert. -/
def recordFailedRequest (s : ParserStats) : ParserStats :=
  { s with failedRequests := s.failedRequests + 1 }

/-- The statement block run when the HTML fallback recovers a 404:
htmlFallbacks and successfulRequests are incremented and failedRequests
is decremented to correct the failure recorded just before. -/
def recoverViaHtmlFallback (s : ParserStats) : ParserStats :=
  { s with htmlFallbacks := s.htmlFallbacks + 1,
           successfulRequests := s.successfulRequests + 1,
           failedRequests := s.failedRequests - 1 }

/-- The observable outcomes of one fetchCAPAlert call. -/
inductive FetchOutcome where
  | cacheHit
  | xmlSuccess
  | xmlNoAlertData
  | errorNoFallback
  | error404FallbackFailed
  | error404FallbackRecovered

/-- Net statistics transition of one whole fetchCAPAlert call, by
outcome, transcribed from capParser.ts fetchCAPAlert.  A response that
parses but carries no alert element returns early after the
totalRequests increment; the HTML fallback itself touches no counters,
so a failed fallback leaves only the failure recorded. -/
def fetchCAPAlertStats (o : FetchOutcome) (s : ParserStats) : ParserStats :=
  match o with
  | .cacheHit =>
    let s1 := incTotalRequests s
    { s1 with cacheHits := s1.cacheHits + 1 }
  | .xmlSuccess =>
    let s1 := incTotalRequests s
    { s1 with successfulRequests := s1.successfulRequests + 1 }
  | .xmlNoAlertData => incTotalRequests s
  | .errorNoFallback => recordFailedRequest (incTotalRequests s)
  | .error404FallbackFailed => recordFailedRequest (incTotalRequests s)
  | .error404FallbackRecovered =>
    recoverViaHtmlFallback (recordFailedRequest (incTotalRequests s))

/-- The in-memory counters of CAPSchedulerService (capScheduler.ts). -/
structure SchedulerStats where
  totalFetches : Nat
  successfulFetches : Nat
  failedFetches : Nat
  newAlerts : Nat
  updatedAlerts : Nat
  expiredAlerts : Nat
  cleanedUpAlerts : Nat
deriving DecidableEq

/-- Componentwise order on scheduler statistics. -/
def SchedulerStats.le (s t : SchedulerStats) : Prop :=
  s.totalFetches ≤ t.totalFetches ∧ s.successfulFetches ≤ t.successfulFetches ∧
  s.failedFetches ≤ t.failedFetches ∧ s.newAlerts ≤ t.newAlerts ∧
  s.updatedAlerts ≤ t.updatedAlerts ∧ s.expiredAlerts ≤ t.expiredAlerts ∧
  s.cleanedUpAlerts ≤ t.cleanedUpAlerts

/-- Net statistics transition of one fetchAlertsFromSource cycle:
totalFetches always increments, then either successfulFetches or
failedFetches, and the new, updated and expired counters gain the cycle
counts. -/
def recordCycleStats (s : SchedulerStats) (fetchOk : Bool)
    (newC updC expC : Nat) : SchedulerStats :=
  { s with totalFetches := s.totalFetches + 1,
           successfulFetches := s.successfulFetches + (if fetchOk then 1 else 0),
           failedFetches := s.failedFetches + (if fetchOk then 0 else 1),
           newAlerts := s.newAlerts + newC,
           updatedAlerts := s.updatedAlerts + updC,
           expiredAlerts := s.expiredAlerts + expC }

/-- Net statistics transition of one cleanupOldAlerts pass. -/
def recordCleanupStats (s : SchedulerStats) (deletedC expC : Nat) : SchedulerStats :=
  { s with cleanedUpAlerts := s.cleanedUpAlerts + deletedC,
           expiredAlerts := s.expiredAlerts + expC }

/-- The axios-retry retryDelay callback of capParser.ts: retryCount times
1000 milliseconds. -/
def retryDelay (retryCount : Nat) : Nat := retryCount * 1000

/-- The axios-retry retries option of capParser.ts. -/
def configuredRetries : Nat := 3

/-- An axios error as far as the retry predicate inspects it: whether it
is a network error (no response arrived) and the response status when one
did. -/
structure AxiosError where
  isNetworkError : Bool
  status : Option Nat

/-- The axios-retry retryCondition of capParser.ts for the GET requests
this client issues: isNetworkOrIdempotentRequestError (network error, or
idempotent request with no response or a 5xx response) or an explicit
status of at least 500. -/
def retryCondition (e : AxiosError) : Bool :=
  e.isNetworkError ||
    (match e.status with
     | some s => decide (500 ≤ s)
     | none => false)

/-- HTTP method, as far as the cap-alerts router distinguishes them. -/
inductive HttpMethod where
  | get
  | post
deriving DecidableEq

/-- The handlers registered on the cap-alerts router, in source order. -/
inductive CapAlertsRoute where
  | fetchRoute
  | activeRoute
  | byId (id : String)
  | areaRoute (lat lng : String)
  | severityRoute (level : String)
  | refreshRoute
  | statsRoute
deriving DecidableEq

/-- Express route matching for the cap-alerts router: handlers are tried
in registration order (capAlerts.ts top to bottom) and a path parameter
such as :id matches exactly one path segment.  The path is a list of
segments. -/
def matchCapAlertsRoute (m : HttpMethod) (path : List String) : Option CapAlertsRoute :=
  if m = .get ∧ path = ["fetch"] then some .fetchRoute
  else if m = .get ∧ path = ["active"] then some .activeRoute
  else if m = .get ∧ path.length = 1 then some (.byId (path.getD 0 ""))
  else if m = .get ∧ path.length = 3 ∧ path.getD 0 "" = "area" then
    some (.areaRoute (path.getD 1 "") (path.getD 2 ""))
  else if m = .get ∧ path.length = 2 ∧ path.getD 0 "" = "severity" then
    some (.severityRoute (path.getD 1 ""))
  else if m = .post ∧ path = ["refresh"] then some .refreshRoute
  else if m = .get ∧ path = ["stats"] then some .statsRoute
  else none

/-- Mongoose ObjectId cast acceptance: a 24-character hexadecimal string
or any 12-character string. -/
def isValidObjectId (s : String) : Bool :=
  (decide (s.length = 24) &&
    s.data.all fun c => c.isDigit || ('a' ≤ c && c ≤ 'f') || ('A' ≤ c && c ≤ 'F')) ||
  decide (s.length = 12)

/-- Response envelope as far as the claims inspect it. -/
structure ApiResponse where
  status : Nat
  success : Bool
deriving DecidableEq

/-- The GET /:id handler of capAlerts.ts: findById throws a CastError on
a string that cannot be an ObjectId, which the catch block turns into a
500 error envelope; otherwise 404 when absent and 200 when found. -/
def getByIdResponse (id : String) (found : Bool) : ApiResponse :=
  if !isValidObjectId id then { status := 500, success := false }
  else if found then { status := 200, success := true }
  else { status := 404, success := false }

/-- Outcome of the GET /area/:lat/:lng handler of capAlerts.ts: parseFloat
both parameters, answer 400 when either is NaN, otherwise run the spatial
findAlertsInArea query and answer 200. -/
structure AreaLookupOutcome where
  status : Nat
  ranSpatialQuery : Bool
deriving DecidableEq

/-- The GET /area/:lat/:lng handler body: the only validation is the NaN
check on the two parseFloat results; no range check exists. -/
def areaByPointHandler (latStr lngStr : String) : AreaLookupOutcome :=
  match parseFloatFinite latStr, parseFloatFinite lngStr with
  | some _, some _ => { status := 200, ranSpatialQuery := true }
  | _, _ => { status := 400, ranSpatialQuery := false }

/-- A CAP source document with the fields the claims touch. -/
structure CAPSourceDoc where
  name : String
  url : String
  country : String
  language : String
  isActive : Bool
  isDefault : Bool
  fetchInterval : Int
deriving DecidableEq

/-- The fetchInterval schema constraint of CAPSource.ts: the min 30
validator.  Validators the claims never exercise are omitted; a failure
of this one alone already rejects the document. -/
def capSourceSchemaValid (d : CAPSourceDoc) : Bool :=
  decide (30 ≤ d.fetchInterval)

/-- The request body of POST /cap-sources as far as the handler reads it;
absent JSON fields are none. -/
structure CreateSourceBody where
  name : String
  url : String
  country : String
  language : Option String
  isActive : Option Bool
  isDefault : Option Bool
  fetchInterval : Option Int

/-- JavaScript or-default on a possibly absent number: undefined and 0
are both falsy and replaced by the default. -/
def jsNumOr (v : Option Int) (dflt : Int) : Int :=
  match v with
  | none => dflt
  | some x => if x = 0 then dflt else x

/-- The document constructed by the POST /cap-sources handler
(createSource): language defaults to en, isActive to true, isDefault to
false, and fetchInterval to 3 through the or-default. -/
def createSourceDoc (b : CreateSourceBody) : CAPSourceDoc :=
  { name := b.name, url := b.url, country := b.country,
    language := b.language.getD "en",
    isActive := b.isActive.getD true,
    isDefault := b.isDefault.getD false,
    fetchInterval := jsNumOr b.fetchInterval 3 }

/-- Mongoose save: run the schema validators and persist only on
success. -/
def saveSource (d : CAPSourceDoc) : Option CAPSourceDoc :=
  if capSourceSchemaValid d then some d else none

/-- The seeded default source list of the POST /cap-sources/seed handler:
the single NDMA India entry with fetchInterval 3. -/
def seedDefaultSources : List CAPSourceDoc :=
  [{ name := "NDMA India",
     url := "https://sachet.ndma.gov.in/cap_public_website/rss/rss_india.xml",
     country := "India", language := "en", isActive := true, isDefault := true,
     fetchInterval := 3 }]

/-- Mongoose insertMany in its default ordered mode: every document is
validated and nothing is persisted when any fails. -/
def insertManySources (docs : List CAPSourceDoc) : Option (List CAPSourceDoc) :=
  if docs.all capSourceSchemaValid then some docs else none

/-- The fields of a stored alert that the skip test of
processAlertsBatch reads: identifier, sent and isActive. -/
def coreOf (r : StoredAlert) : String × Int × Bool :=
  (r.identifier, r.sent, r.isActive)

/-- A store projected to the skip-relevant fields. -/
def storeCore (store : List StoredAlert) : List (String × Int × Bool) :=
  store.map coreOf

example : parseFloatFinite "10,20" = some 10 := by with_unfolding_all rfl
example : parseFloatFinite "10" = some 10 := by with_unfolding_all rfl
example : parseFloatFinite "" = none := by with_unfolding_all rfl
example : parseFloatFinite "-3.5" = some (-7/2) := by with_unfolding_all decide
example : splitWhitespace "10,20 10,30" = ["10,20", "10,30"] := by with_unfolding_all rfl
example : convertToGeoJSON ["10,20 10,30 20,30 20,20"] = none := by with_unfolding_all rfl
example : convertToGeoJSON ["10 20 10 30 20 30 20 20"] =
    some (GeoJson.polygon [[(20,10),(30,10),(30,20),(20,20),(20,10)]]) := by
  with_unfolding_all decide

/-! ## Claims -/

/-- C1 counterexample: for the single CAP polygon string
"10,20 10,30 20,30 20,20" the claim asserts that after one fetch cycle the
stored area has geoJson Polygon [[[20,10],[30,10],[30,20],[20,20],[20,10]]].
In fact the decoder splits on whitespace only, parseFloat truncates each
comma pair at the comma, the surviving ring has 2 points and is dropped,
and the stored alert has no geoJson at all. -/
theorem c1_counterexample :
    ((fetchCycle [⟨"EXAMPLE-1", 0, [1000], ["10,20 10,30 20,30 20,20"]⟩] [] 0).store.map
        (·.geoJson)) = [none] ∧
    (none : Option GeoJson) ≠
      some (GeoJson.polygon [[(20,10),(30,10),(30,20),(20,20),(20,10)]]) := by
  with_unfolding_all decide

/-- C1 amended: the polygon decoder accepts only the fully
space-separated form.  The comma-paired string of the claim produces no
geoJson, while the space-separated form of the same ring produces exactly
the claimed Polygon; one fetch cycle over a feed with that single alert
stores one active alert with that geometry and emits exactly one
alert.new event. -/
theorem c1_amended :
    convertToGeoJSON ["10,20 10,30 20,30 20,20"] = none ∧
    convertToGeoJSON ["10 20 10 30 20 30 20 20"] =
      some (GeoJson.polygon [[(20,10),(30,10),(30,20),(20,20),(20,10)]]) ∧
    (fetchCycle [⟨"EXAMPLE-1", 0, [1000], ["10 20 10 30 20 30 20 20"]⟩] [] 0).store.map
        (·.geoJson) =
      [some (GeoJson.polygon [[(20,10),(30,10),(30,20),(20,20),(20,10)]])] ∧
    (fetchCycle [⟨"EXAMPLE-1", 0, [1000], ["10 20 10 30 20 30 20 20"]⟩] [] 0).store.map
        (·.isActive) = [true] ∧
    (fetchCycle [⟨"EXAMPLE-1", 0, [1000], ["10 20 10 30 20 30 20 20"]⟩] [] 0).events =
      [AlertEvent.newAlert "EXAMPLE-1"] := by
  with_unfolding_all decide

/-- C2: the claim is right and the code is wrong.  The expired-bit repair
query compares the array path info.expires with the bound now and MongoDB
matches existentially, so a stored alert with one past and one future
expiry (here 900 and 1100 at now 1000) is marked inactive even though
isAlertActive and the isCurrentlyActive virtual classify it as active
(some expiry in the future), the very definition the writer just used to
set the bit. -/
theorem c2_repair_deactivates_still_active_alert :
    isCurrentlyActive ⟨"A", 0, [900, 1100], true, none, 0⟩ 1000 = true ∧
    isAlertActive ⟨"A", 0, [900, 1100], []⟩ 1000 = true ∧
    (markExpired [⟨"A", 0, [900, 1100], true, none, 0⟩] 1000).1 =
      [⟨"A", 0, [900, 1100], false, none, 0⟩] ∧
    (fetchCycle [] [⟨"A", 0, [900, 1100], true, none, 0⟩] 1000).store.map (·.isActive) =
      [false] := by
  with_unfolding_all decide

/-- C3 counterexample: processing the same two-element list twice with the
store unchanged in between and the active classification unchanged.  The
list repeats one identifier with two different sent values; the first run
inserts only the first copy (the second hits the unique index), so on the
second run the second copy fails the skip test and is counted as an
update, refuting the zero-updates claim. -/
theorem c3_counterexample :
    (processAlertsBatch [⟨"X", 1, [2000], []⟩, ⟨"X", 2, [2000], []⟩]
        ((processAlertsBatch [⟨"X", 1, [2000], []⟩, ⟨"X", 2, [2000], []⟩] [] 1000).store)
        1000).counts.updatedCount = 1 := by
  with_unfolding_all decide

/-- C4 counterexample: a stored active alert whose only expiry is past
transitions to inactive during the expired-bit repair of a fetch cycle,
and the cycle emits no event at all, in particular no alert.expire. -/
theorem c4_counterexample :
    (fetchCycle [] [⟨"A", 0, [500], true, none, 0⟩] 1000).store =
      [⟨"A", 0, [500], false, none, 0⟩] ∧
    (fetchCycle [] [⟨"A", 0, [500], true, none, 0⟩] 1000).events = [] := by
  with_unfolding_all decide

/-- C5: the claim is right and the code is wrong.  The GET /:id handler is
registered before the GET /stats handler, Express matches in registration
order, and :id matches any single segment, so GET /cap-alerts/stats is
handled as a by-id lookup; findById("stats") raises a CastError, which
the catch block turns into a 500 error envelope.  The stats handler is
unreachable. -/
theorem c5_stats_route_shadowed :
    matchCapAlertsRoute .get ["stats"] = some (CapAlertsRoute.byId "stats") ∧
    matchCapAlertsRoute .get ["stats"] ≠ some CapAlertsRoute.statsRoute ∧
    getByIdResponse "stats" false = { status := 500, success := false } ∧
    getByIdResponse "stats" true = { status := 500, success := false } := by
  with_unfolding_all decide

/-- C6: the claim is right and the code is wrong.  The retryDelay callback
computes retryCount times 1000, so the delays are 1 s, 2 s, 3 s; the code
comment directly above it promises exponential backoff 1 s, 2 s, 4 s.
The retry-condition half of the claim does hold: network errors and 5xx
retry, 4xx does not. -/
theorem c6_retry_delay_linear_not_exponential :
    retryDelay 1 = 1000 ∧ retryDelay 2 = 2000 ∧ retryDelay 3 = 3000 ∧
    retryDelay 3 ≠ 4000 ∧ configuredRetries = 3 ∧
    retryCondition ⟨true, none⟩ = true ∧
    retryCondition ⟨false, some 503⟩ = true ∧
    retryCondition ⟨false, some 500⟩ = true ∧
    retryCondition ⟨false, some 404⟩ = false ∧
    retryCondition ⟨false, some 400⟩ = false := by
  decide

/-- C7 counterexample: latitude 100 is outside [-90, 90], yet the
area handler parses it to a number, skips any range check, runs the
spatial query and answers 200, not 400. -/
theorem c7_counterexample :
    areaByPointHandler "100" "0" = { status := 200, ranSpatialQuery := true } ∧
    parseFloatFinite "100" = some 100 ∧ ¬ ((100 : ℚ) ≤ 90) := by
  with_unfolding_all decide

/-- C7 amended: the only validation in the GET /area/:lat/:lng handler is
the NaN check on the parseFloat results: the response is 400 exactly when
a coordinate fails to parse, and the spatial query runs exactly
otherwise; numerically out-of-range coordinates are not rejected. -/
theorem c7_amended (latStr lngStr : String) :
    ((areaByPointHandler latStr lngStr).status = 400 ↔
      (parseFloatFinite latStr = none ∨ parseFloatFinite lngStr = none)) ∧
    ((areaByPointHandler latStr lngStr).ranSpatialQuery = true ↔
      ¬ (parseFloatFinite latStr = none ∨ parseFloatFinite lngStr = none)) := by
  unfold areaByPointHandler
  cases h1 : parseFloatFinite latStr <;> cases h2 : parseFloatFinite lngStr <;> simp

/-- C8 counterexample: the 404-to-HTML-fallback recovery path decrements
failedRequests.  Starting from zero statistics, after the failure of the
XML fetch is recorded failedRequests is 1, and the recovery block brings
it back down to 0, a strict decrease caused by a parser operation. -/
theorem c8_counterexample :
    (recoverViaHtmlFallback (recordFailedRequest (incTotalRequests ParserStats.zero))).failedRequests
      < (recordFailedRequest (incTotalRequests ParserStats.zero)).failedRequests := by
  decide

/-- C8 amended: across a whole fetchCAPAlert call every parser counter is
non-decreasing for every outcome (in the recovered-404 outcome the
decrement only cancels the increment recorded earlier in the same call),
and every scheduler statistics update is non-decreasing; the only
decreasing step anywhere is the failedRequests decrement inside the
404-to-HTML-fallback recovery. -/
theorem c8_amended :
    (∀ (s : ParserStats) (o : FetchOutcome), ParserStats.le s (fetchCAPAlertStats o s)) ∧
    (∀ (s : SchedulerStats) (fetchOk : Bool) (newC updC expC : Nat),
      SchedulerStats.le s (recordCycleStats s fetchOk newC updC expC)) ∧
    (∀ (s : SchedulerStats) (deletedC expC : Nat),
      SchedulerStats.le s (recordCleanupStats s deletedC expC)) := by
  refine ⟨fun s o => ?_, fun s fetchOk newC updC expC => ?_, fun s deletedC expC => ?_⟩
  · cases o <;>
      simp only [fetchCAPAlertStats, incTotalRequests, recordFailedRequest,
        recoverViaHtmlFallback, ParserStats.le] <;> omega
  · cases fetchOk <;>
      simp only [recordCycleStats, SchedulerStats.le, if_true, if_false] <;> omega
  · simp only [recordCleanupStats, SchedulerStats.le]
    omega

/-- C10: the POST /cap-sources handler defaults a missing fetchInterval to
3 and the seeded NDMA entry also carries 3; both are below the schema
minimum of 30, so the save and the seeding insert are rejected by
validation and neither operation persists a source record. -/
theorem c10_fetch_interval_below_minimum (b : CreateSourceBody)
    (h : b.fetchInterval = none) :
    (createSourceDoc b).fetchInterval = 3 ∧
    saveSource (createSourceDoc b) = none ∧
    insertManySources seedDefaultSources = none := by
  refine ⟨?_, ?_, ?_⟩
  · simp [createSourceDoc, jsNumOr, h]
  · simp [saveSource, capSourceSchemaValid, createSourceDoc, jsNumOr, h]
  · decide

/-- C10 witness: the concrete body with every optional field absent. -/
theorem c10_witness :
    saveSource (createSourceDoc
      { name := "Test", url := "http://example.org/rss.xml", country := "India",
        language := none, isActive := none, isDefault := none,
        fetchInterval := none }) = none ∧
    insertManySources seedDefaultSources = none :=
  ⟨(c10_fetch_interval_below_minimum _ rfl).2.1,
   (c10_fetch_interval_below_minimum
      { name := "Test", url := "http://example.org/rss.xml", country := "India",
        language := none, isActive := none, isDefault := none,
        fetchInterval := none } rfl).2.2⟩

/-- Every event produced by the geometry-and-save loop is a
cap-alert-new event. -/
theorem geoSaveLoop_events_new (inserted : List ParsedAlert) (store : List StoredAlert) :
    ((geoSaveLoop inserted store).2).all AlertEvent.isNew = true := by
  induction inserted generalizing store with
  | nil => simp [geoSaveLoop]
  | cons a rest ih => simp [geoSaveLoop, AlertEvent.isNew, ih]

/-- Every event produced by processBatch is a cap-alert-new event. -/
theorem processBatch_events_new (batch : List ParsedAlert) (existing : List String)
    (store : List StoredAlert) (now : Int) :
    ((processBatch batch existing store now).events).all AlertEvent.isNew = true := by
  unfold processBatch
  dsimp only
  split
  · rfl
  · exact geoSaveLoop_events_new _ _

/-- Every event produced by the processing loop is a cap-alert-new event,
provided the already accumulated events are. -/
theorem processLoop_events_new (alerts : List ParsedAlert) :
    ∀ (snapshot : List String) (batch : List ParsedAlert) (store : List StoredAlert)
      (events : List AlertEvent) (counts : CycleCounts) (now : Int),
      events.all AlertEvent.isNew = true →
      ((processLoop alerts snapshot batch store events counts now).events).all
        AlertEvent.isNew = true := by
  induction alerts with
  | nil =>
    intro snapshot batch store events counts now h
    unfold processLoop
    split
    · exact h
    · simp [List.all_append, h, processBatch_events_new]
  | cons a rest ih =>
    intro snapshot batch store events counts now h
    unfold processLoop
    split
    · exact ih _ _ _ _ _ _ h
    · dsimp only
      split
      · apply ih
        simp [List.all_append, h, processBatch_events_new]
      · exact ih _ _ _ _ _ _ h

/-- C4 amended: no alert.expire event is ever emitted.  Every event of a
scheduler fetch cycle is a cap-alert-new event (the expired-bit repair
broadcasts nothing even while it flips alerts to inactive), and a janitor
pass emits no event at all. -/
theorem c4_amended (alerts : List ParsedAlert) (store : List StoredAlert) (now : Int) :
    ((fetchCycle alerts store now).events).all AlertEvent.isNew = true ∧
    (cleanupOldAlerts store now).events = [] := by
  constructor
  · show ((processAlertsBatch alerts store now).events).all AlertEvent.isNew = true
    exact processLoop_events_new _ _ _ _ _ _ _ rfl
  · rfl

/-- A lookup misses exactly when the identifier is absent from the
store. -/
theorem lookupAlert_eq_none_iff (store : List StoredAlert) (id : String) :
    lookupAlert store id = none ↔ id ∉ storeIds store := by
  simp only [lookupAlert, List.find?_eq_none, storeIds, List.mem_map, decide_eq_true_eq]
  constructor
  · rintro h ⟨r, hr, hrid⟩
    exact h r hr hrid
  · intro h r hr hrid
    exact h ⟨r, hr, hrid⟩

/-- A lookup on a present identifier yields a record carrying it. -/
theorem lookupAlert_some_of_mem (store : List StoredAlert) (id : String)
    (h : id ∈ storeIds store) :
    ∃ ex, lookupAlert store id = some ex ∧ ex.identifier = id := by
  rcases hs : lookupAlert store id with _ | ex
  · exact absurd ((lookupAlert_eq_none_iff store id).mp hs) (by simpa using h)
  · exact ⟨ex, rfl, by simpa using List.find?_some hs⟩

/-- updateFirst keeps the identifier sequence when the rewrite preserves
the identifier of the record it hits. -/
theorem storeIds_updateFirst (s : List StoredAlert) (id : String)
    (f : StoredAlert → StoredAlert) (hf : ∀ r, r.identifier = id → (f r).identifier = id) :
    storeIds (updateFirst s id f) = storeIds s := by
  induction s with
  | nil => rfl
  | cons r rest ih =>
    unfold updateFirst
    by_cases h : r.identifier = id
    · simp [h, storeIds, hf r h]
    · simpa [h, storeIds] using ih

/-- Rewriting the first record with an identifier changes the lookup of
that identifier by exactly the rewrite. -/
theorem lookupAlert_updateFirst_self (s : List StoredAlert) (id : String)
    (f : StoredAlert → StoredAlert) (hf : ∀ r, r.identifier = id → (f r).identifier = id) :
    lookupAlert (updateFirst s id f) id = (lookupAlert s id).map f := by
  induction s with
  | nil => rfl
  | cons r rest ih =>
    unfold updateFirst lookupAlert
    by_cases h : r.identifier = id
    · rw [if_pos h, List.find?_cons_of_pos _ (by simp [hf r h]),
        List.find?_cons_of_pos _ (by simp [h])]
      rfl
    · rw [if_neg h, List.find?_cons_of_neg _ (by simp [h]),
        List.find?_cons_of_neg _ (by simp [h])]
      exact ih

/-- Rewriting the first record with one identifier leaves lookups of any
other identifier unchanged. -/
theorem lookupAlert_updateFirst_other (s : List StoredAlert) (id id2 : String)
    (f : StoredAlert → StoredAlert) (hf : ∀ r, r.identifier = id → (f r).identifier = id)
    (hne : id2 ≠ id) :
    lookupAlert (updateFirst s id f) id2 = lookupAlert s id2 := by
  induction s with
  | nil => rfl
  | cons r rest ih =>
    unfold updateFirst lookupAlert
    by_cases h : r.identifier = id
    · have h2 : ¬ ((f r).identifier = id2) := by
        rw [hf r h]
        exact fun hx => hne hx.symm
      have h3 : ¬ (r.identifier = id2) := by
        rw [h]
        exact fun hx => hne hx.symm
      rw [if_pos h, List.find?_cons_of_neg _ (by simp [h2]),
        List.find?_cons_of_neg _ (by simp [h3])]
    · rw [if_neg h]
      by_cases h2 : r.identifier = id2
      · rw [List.find?_cons_of_pos _ (by simp [h2]), List.find?_cons_of_pos _ (by simp [h2])]
      · rw [List.find?_cons_of_neg _ (by simp [h2]), List.find?_cons_of_neg _ (by simp [h2])]
        exact ih

/-- updateFirst with a core-preserving rewrite preserves the projected
store. -/
theorem storeCore_updateFirst (s : List StoredAlert) (id : String)
    (f : StoredAlert → StoredAlert) (hf : ∀ r, coreOf (f r) = coreOf r) :
    storeCore (updateFirst s id f) = storeCore s := by
  induction s with
  | nil => rfl
  | cons r rest ih =>
    unfold updateFirst
    by_cases h : r.identifier = id
    · simp [h, storeCore, hf r]
    · simpa [h, storeCore] using ih

/-- Stores with equal projections have lookups with equal projections. -/
theorem lookup_core_congr {s t : List StoredAlert} (h : storeCore s = storeCore t)
    (id : String) :
    (lookupAlert s id).map coreOf = (lookupAlert t id).map coreOf := by
  induction s generalizing t with
  | nil =>
    cases t with
    | nil => rfl
    | cons q qs => simp [storeCore] at h
  | cons r rs ih =>
    cases t with
    | nil => simp [storeCore] at h
    | cons q qs =>
      simp only [storeCore, List.map_cons, List.cons.injEq] at h
      obtain ⟨hrq, hrest⟩ := h
      have hid : r.identifier = q.identifier := congrArg Prod.fst hrq
      unfold lookupAlert
      by_cases hp : r.identifier = id
      · rw [List.find?_cons_of_pos _ (by simp [hp]),
          List.find?_cons_of_pos _ (by simp [hid ▸ hp])]
        simpa using hrq
      · rw [List.find?_cons_of_neg _ (by simp [hp]),
          List.find?_cons_of_neg _ (by simp [hid ▸ hp])]
        exact ih hrest

/-- The projected identifier sequence is determined by the projected
store. -/
theorem storeIds_eq_of_storeCore_eq {s t : List StoredAlert}
    (h : storeCore s = storeCore t) : storeIds s = storeIds t := by
  have := congrArg (List.map Prod.fst) h
  simpa [storeCore, storeIds, List.map_map, Function.comp] using this

/-- The bulk-update fold keeps the identifier sequence. -/
theorem storeIds_foldUpdates (updates : List ParsedAlert) (store : List StoredAlert)
    (now : Int) :
    storeIds (updates.foldl
      (fun s a => updateFirst s a.identifier fun _ => cleanedRecord a now) store) =
      storeIds store := by
  induction updates generalizing store with
  | nil => rfl
  | cons u rest ih =>
    rw [List.foldl_cons, ih, storeIds_updateFirst]
    intro r _
    rfl

/-- The bulk-update fold leaves lookups of untouched identifiers
unchanged. -/
theorem lookup_foldUpdates_frame (updates : List ParsedAlert) (store : List StoredAlert)
    (now : Int) (id : String) (hid : id ∉ updates.map (·.identifier)) :
    lookupAlert (updates.foldl
      (fun s a => updateFirst s a.identifier fun _ => cleanedRecord a now) store) id =
      lookupAlert store id := by
  induction updates generalizing store with
  | nil => rfl
  | cons u rest ih =>
    simp only [List.map_cons, List.mem_cons, not_or] at hid
    rw [List.foldl_cons, ih _ hid.2, lookupAlert_updateFirst_other]
    · intro r _
      rfl
    · exact hid.1

/-- After the bulk-update fold, every update whose identifier was present
reads back as its cleaned record. -/
theorem lookup_foldUpdates_target (updates : List ParsedAlert) (now : Int) :
    ∀ (store : List StoredAlert), (updates.map (·.identifier)).Nodup →
      ∀ u ∈ updates, u.identifier ∈ storeIds store →
        lookupAlert (updates.foldl
          (fun s a => updateFirst s a.identifier fun _ => cleanedRecord a now) store)
          u.identifier = some (cleanedRecord u now) := by
  induction updates with
  | nil =>
    intro store _ u hu
    cases hu
  | cons u0 rest ih =>
    intro store hnd u hu hmem
    rw [List.foldl_cons]
    simp only [List.map_cons, List.nodup_cons] at hnd
    rcases List.mem_cons.mp hu with rfl | hu'
    · have h1 : lookupAlert
          (updateFirst store u.identifier fun _ => cleanedRecord u now) u.identifier =
          some (cleanedRecord u now) := by
        rw [lookupAlert_updateFirst_self store u.identifier
          (fun _ => cleanedRecord u now) (fun r _ => rfl)]
        obtain ⟨ex, hex, _⟩ := lookupAlert_some_of_mem store u.identifier hmem
        rw [hex]
        rfl
      rw [lookup_foldUpdates_frame _ _ _ _ hnd.1]
      exact h1
    · apply ih _ hnd.2 u hu'
      rw [storeIds_updateFirst]
      · exact hmem
      · intro r _
        rfl

/-- insertMany on documents whose identifiers are fresh and pairwise
distinct appends all of them in order and reports success. -/
theorem insertLoop_no_collision (news : List ParsedAlert) (now : Int) :
    ∀ (store : List StoredAlert), (news.map (·.identifier)).Nodup →
      (∀ a ∈ news, a.identifier ∉ storeIds store) →
      insertLoop news now store =
        (store ++ news.map (fun b => cleanedRecord b now), news, false) := by
  induction news with
  | nil =>
    intro store _ _
    simp [insertLoop]
  | cons a rest ih =>
    intro store hnd hdisj
    simp only [List.map_cons, List.nodup_cons] at hnd
    have hni : ((storeIds store).contains a.identifier) = false := by
      simp only [List.contains, List.elem_eq_mem, decide_eq_false_iff_not]
      exact hdisj a (List.mem_cons_self a rest)
    unfold insertLoop
    rw [hni]
    simp only [Bool.false_eq_true, if_false]
    rw [ih (store ++ [cleanedRecord a now]) hnd.2 ?_]
    · simp
    · intro b hb
      have hbids : storeIds (store ++ [cleanedRecord a now]) =
          storeIds store ++ [a.identifier] := by
        simp [storeIds, cleanedRecord]
      rw [hbids]
      simp only [List.mem_append, List.mem_singleton, not_or]
      refine ⟨hdisj b (List.mem_cons_of_mem _ hb), fun hba => hnd.1 ?_⟩
      rw [← hba]
      exact List.mem_map_of_mem _ hb

/-- The geometry-and-save loop preserves the projected store. -/
theorem storeCore_geoSaveLoop (inserted : List ParsedAlert) :
    ∀ (store : List StoredAlert),
      storeCore ((geoSaveLoop inserted store).1) = storeCore store := by
  induction inserted with
  | nil =>
    intro store
    rfl
  | cons a rest ih =>
    intro store
    unfold geoSaveLoop
    dsimp only
    rw [ih, storeCore_updateFirst]
    intro r
    rfl

/-- Among freshly inserted records with pairwise distinct identifiers,
the lookup of each one finds exactly its cleaned record. -/
theorem find_cleaned_of_mem (news : List ParsedAlert) (now : Int)
    (a : ParsedAlert) :
    (news.map (·.identifier)).Nodup → a ∈ news →
      lookupAlert (news.map (fun b => cleanedRecord b now)) a.identifier =
        some (cleanedRecord a now) := by
  induction news with
  | nil =>
    intro _ h
    cases h
  | cons b rest ih =>
    intro hnd ha
    simp only [List.map_cons, List.nodup_cons] at hnd
    unfold lookupAlert
    by_cases hb : b.identifier = a.identifier
    · rw [List.map_cons, List.find?_cons_of_pos _ (by simp [cleanedRecord, hb])]
      rcases List.mem_cons.mp ha with rfl | ha'
      · rfl
      · exact absurd (hb ▸ List.mem_map_of_mem (·.identifier) ha') hnd.1
    · rw [List.map_cons, List.find?_cons_of_neg _ (by simp [cleanedRecord, hb])]
      rcases List.mem_cons.mp ha with rfl | ha'
      · exact absurd rfl hb
      · exact ih hnd.2 ha'

/-- contains in membership form. -/
theorem contains_eq_mem_ids (l : List String) (x : String) :
    l.contains x = decide (x ∈ l) := by
  simp [List.contains, List.elem_eq_mem]

/-- contains through an append whose right part misses the element. -/
theorem contains_append_right_miss (s t : List String) (x : String) (hx : x ∉ t) :
    (s ++ t).contains x = s.contains x := by
  simp [contains_eq_mem_ids, List.mem_append, hx]

/-- Lookups distribute over store concatenation. -/
theorem lookupAlert_append (s t : List StoredAlert) (id : String) :
    lookupAlert (s ++ t) id = (lookupAlert s id).or (lookupAlert t id) := by
  simp [lookupAlert, List.find?_append]

/-- The identifier sequence distributes over store concatenation. -/
theorem storeIds_append (s t : List StoredAlert) :
    storeIds (s ++ t) = storeIds s ++ storeIds t := by
  simp [storeIds]

/-- processBatch unfolded on a successful insert. -/
theorem processBatch_eq_of_insert_ok (batch : List ParsedAlert) (snapshot : List String)
    (store : List StoredAlert) (now : Int) (S : List StoredAlert) (I : List ParsedAlert)
    (h : insertLoop (batch.filter fun a => !snapshot.contains a.identifier) now
        ((batch.filter fun a => snapshot.contains a.identifier).foldl
          (fun s a => updateFirst s a.identifier fun _ => cleanedRecord a now) store) =
        (S, I, false)) :
    processBatch batch snapshot store now =
      { store := (geoSaveLoop I S).1, events := (geoSaveLoop I S).2,
        newCount := (batch.filter fun a => !snapshot.contains a.identifier).length,
        updatedCount := (batch.filter fun a => snapshot.contains a.identifier).length,
        errorCount := 0 } := by
  unfold processBatch
  dsimp only
  rw [h]
  simp

/-- Full specification of processBatch for a batch with pairwise distinct
identifiers whose snapshot membership agrees with store membership: every
batch member reads back with its rewritten core, every other lookup keeps
its core, and the identifier sequence is extended by exactly the fresh
identifiers. -/
theorem processBatch_spec (batch : List ParsedAlert) (snapshot : List String)
    (store : List StoredAlert) (now : Int)
    (hb : (batch.map (·.identifier)).Nodup)
    (hmem : ∀ a ∈ batch,
      snapshot.contains a.identifier = (storeIds store).contains a.identifier) :
    (∀ a ∈ batch,
      (lookupAlert (processBatch batch snapshot store now).store a.identifier).map coreOf =
        some (a.identifier, a.sent, isAlertActive a now)) ∧
    (∀ id, id ∉ batch.map (·.identifier) →
      (lookupAlert (processBatch batch snapshot store now).store id).map coreOf =
        (lookupAlert store id).map coreOf) ∧
    storeIds (processBatch batch snapshot store now).store =
      storeIds store ++
        ((batch.filter fun a => !snapshot.contains a.identifier).map (·.identifier)) := by
  have hnd_news :
      (((batch.filter fun a => !snapshot.contains a.identifier).map (·.identifier))).Nodup :=
    hb.sublist ((List.filter_sublist _).map _)
  have hnd_upd :
      (((batch.filter fun a => snapshot.contains a.identifier).map (·.identifier))).Nodup :=
    hb.sublist ((List.filter_sublist _).map _)
  have hids1 : storeIds ((batch.filter fun a => snapshot.contains a.identifier).foldl
      (fun s a => updateFirst s a.identifier fun _ => cleanedRecord a now) store) =
      storeIds store :=
    storeIds_foldUpdates _ _ _
  have hdisj : ∀ a ∈ (batch.filter fun a => !snapshot.contains a.identifier),
      a.identifier ∉ storeIds ((batch.filter fun a => snapshot.contains a.identifier).foldl
        (fun s a => updateFirst s a.identifier fun _ => cleanedRecord a now) store) := by
    intro a ha
    rw [hids1]
    obtain ⟨hab, hcon⟩ := List.mem_filter.mp ha
    rw [hmem a hab] at hcon
    simp only [Bool.not_eq_true', contains_eq_mem_ids, decide_eq_false_iff_not] at hcon
    exact hcon
  have hins := insertLoop_no_collision _ now _ hnd_news hdisj
  have hpb := processBatch_eq_of_insert_ok batch snapshot store now _ _ hins
  rw [hpb]
  have hcore := storeCore_geoSaveLoop
    (batch.filter fun a => !snapshot.contains a.identifier)
    (((batch.filter fun a => snapshot.contains a.identifier).foldl
        (fun s a => updateFirst s a.identifier fun _ => cleanedRecord a now) store) ++
      ((batch.filter fun a => !snapshot.contains a.identifier).map
        (fun b => cleanedRecord b now)))
  refine ⟨?_, ?_, ?_⟩
  · intro a ha
    rw [lookup_core_congr hcore a.identifier, lookupAlert_append]
    rcases Bool.eq_false_or_eq_true (snapshot.contains a.identifier) with hc | hc
    · have haupd : a ∈ batch.filter fun a => snapshot.contains a.identifier :=
        List.mem_filter.mpr ⟨ha, hc⟩
      have hmemstore : a.identifier ∈ storeIds store := by
        have := hmem a ha
        rw [hc] at this
        simp only [contains_eq_mem_ids] at this
        exact of_decide_eq_true this.symm
      rw [lookup_foldUpdates_target _ now store hnd_upd a haupd hmemstore, Option.or_some]
      rfl
    · have hanews : a ∈ batch.filter fun a => !snapshot.contains a.identifier :=
        List.mem_filter.mpr ⟨ha, by simp only [hc, Bool.not_false]⟩
      have hnone : lookupAlert ((batch.filter fun a => snapshot.contains a.identifier).foldl
          (fun s a => updateFirst s a.identifier fun _ => cleanedRecord a now) store)
          a.identifier = none := by
        rw [lookupAlert_eq_none_iff, hids1]
        have := hmem a ha
        rw [hc] at this
        simp only [contains_eq_mem_ids] at this
        exact of_decide_eq_false this.symm
      rw [hnone, Option.none_or, find_cleaned_of_mem _ now a hnd_news hanews]
      rfl
  · intro id hid
    rw [lookup_core_congr hcore id, lookupAlert_append]
    have hnone : lookupAlert ((batch.filter fun a => !snapshot.contains a.identifier).map
        (fun b => cleanedRecord b now)) id = none := by
      rw [lookupAlert_eq_none_iff]
      intro hmem2
      apply hid
      simp only [storeIds, List.map_map] at hmem2
      obtain ⟨b, hb, hbid⟩ := List.mem_map.mp hmem2
      rw [← hbid]
      exact List.mem_map_of_mem _ (List.mem_of_mem_filter hb)
    rw [hnone, Option.or_none, lookup_foldUpdates_frame]
    intro hidupd
    apply hid
    obtain ⟨b, hb, hbid⟩ := List.mem_map.mp hidupd
    rw [← hbid]
    exact List.mem_map_of_mem _ (List.mem_of_mem_filter hb)
  · rw [storeIds_eq_of_storeCore_eq hcore, storeIds_append, hids1]
    congr 1
    simp only [storeIds, List.map_map]
    rfl

/-- Splitting a duplicate-free mapped list around a middle element. -/
theorem nodup_mid_not_mem {α β : Type} (f : α → β) (batch rest : List α) (a : α)
    (h : ((batch ++ a :: rest).map f).Nodup) :
    f a ∉ (batch ++ rest).map f ∧ ((batch ++ rest).map f).Nodup := by
  simp only [List.map_append, List.map_cons] at h
  rw [List.nodup_append] at h
  obtain ⟨hb, hc, hdis⟩ := h
  rw [List.nodup_cons] at hc
  constructor
  · simp only [List.map_append, List.mem_append]
    rintro (hx | hx)
    · exact hdis hx (List.mem_cons_self _ _)
    · exact hc.1 hx
  · rw [List.map_append, List.nodup_append]
    exact ⟨hb, hc.2, fun x hx hx2 => hdis hx (List.mem_cons_of_mem _ hx2)⟩

/-- Invariant propagation through the processing loop: when the batched
and pending identifiers are pairwise distinct and snapshot membership
agrees with store membership on them, every batched or pending alert
reads back with its reconciled core after the loop, every other lookup
keeps its core, and a duplicate-free identifier sequence stays
duplicate free. -/
theorem processLoop_spec (alerts : List ParsedAlert) :
    ∀ (snapshot : List String) (batch : List ParsedAlert) (store : List StoredAlert)
      (events : List AlertEvent) (counts : CycleCounts) (now : Int),
    ((batch ++ alerts).map (·.identifier)).Nodup →
    (∀ a ∈ batch ++ alerts,
      snapshot.contains a.identifier = (storeIds store).contains a.identifier) →
    (storeIds store).Nodup →
    (∀ a ∈ batch ++ alerts,
      (lookupAlert (processLoop alerts snapshot batch store events counts now).store
          a.identifier).map coreOf =
        some (a.identifier, a.sent, isAlertActive a now)) ∧
    (∀ id, id ∉ (batch ++ alerts).map (·.identifier) →
      (lookupAlert (processLoop alerts snapshot batch store events counts now).store id).map
          coreOf =
        (lookupAlert store id).map coreOf) ∧
    (storeIds (processLoop alerts snapshot batch store events counts now).store).Nodup := by
  induction alerts with
  | nil =>
    intro snapshot batch store events counts now h1 h2 h3
    rw [List.append_nil] at h1 h2
    unfold processLoop
    by_cases hbe : batch.isEmpty
    · rw [if_pos hbe]
      obtain rfl : batch = [] := List.isEmpty_iff.mp hbe
      refine ⟨by simp, fun id _ => rfl, h3⟩
    · rw [if_neg hbe]
      obtain ⟨hT, hF, hIds⟩ := processBatch_spec batch snapshot store now h1 h2
      refine ⟨?_, ?_, ?_⟩
      · intro b hb
        rw [List.append_nil] at hb
        exact hT b hb
      · intro id hid
        rw [List.append_nil] at hid
        exact hF id hid
      · rw [hIds, List.nodup_append]
        refine ⟨h3, h1.sublist ((List.filter_sublist _).map _), ?_⟩
        intro x hx hx2
        obtain ⟨b, hbf, hbid⟩ := List.mem_map.mp hx2
        obtain ⟨hbb, hbc⟩ := List.mem_filter.mp hbf
        rw [h2 b hbb] at hbc
        rw [← hbid] at hx
        simp only [Bool.not_eq_true', contains_eq_mem_ids, decide_eq_false_iff_not] at hbc
        exact hbc hx
  | cons a rest ih =>
    intro snapshot batch store events counts now h1 h2 h3
    unfold processLoop
    by_cases hskip : skipCheck snapshot store a now = true
    · rw [if_pos hskip]
      simp only [skipCheck, Bool.and_eq_true] at hskip
      obtain ⟨hcon, hmatch⟩ := hskip
      rcases hl : lookupAlert store a.identifier with _ | ex
      · rw [hl] at hmatch
        cases hmatch
      · rw [hl] at hmatch
        simp only [Bool.and_eq_true, decide_eq_true_eq] at hmatch
        obtain ⟨hsent, hact⟩ := hmatch
        have hexid : ex.identifier = a.identifier := by
          have := List.find?_some hl
          simpa using this
        have hcorelook : (lookupAlert store a.identifier).map coreOf =
            some (a.identifier, a.sent, isAlertActive a now) := by
          rw [hl]
          simp [coreOf, hexid, hsent, hact]
        have hmid := nodup_mid_not_mem (·.identifier) batch rest a h1
        have h2r : ∀ b ∈ batch ++ rest,
            snapshot.contains b.identifier = (storeIds store).contains b.identifier := by
          intro b hb
          apply h2
          rcases List.mem_append.mp hb with hb | hb
          · exact List.mem_append.mpr (Or.inl hb)
          · exact List.mem_append.mpr (Or.inr (List.mem_cons_of_mem _ hb))
        obtain ⟨hT, hF, hN⟩ := ih snapshot batch store events
          { counts with skippedCount := counts.skippedCount + 1 } now hmid.2 h2r h3
        refine ⟨?_, ?_, hN⟩
        · intro b hb
          rcases List.mem_append.mp hb with hbb | hbr
          · exact hT b (List.mem_append.mpr (Or.inl hbb))
          · rcases List.mem_cons.mp hbr with rfl | hbr'
            · rw [hF b.identifier hmid.1]
              exact hcorelook
            · exact hT b (List.mem_append.mpr (Or.inr hbr'))
        · intro id hid
          apply hF
          intro hid2
          apply hid
          simp only [List.map_append, List.mem_append] at hid2 ⊢
          rcases hid2 with hx | hx
          · exact Or.inl hx
          · exact Or.inr (by simp only [List.map_cons, List.mem_cons]; exact Or.inr hx)
    · rw [if_neg hskip]
      dsimp only
      by_cases hflush : BATCH_SIZE ≤ (batch ++ [a]).length
      · rw [if_pos hflush]
        have heq : (batch ++ [a]) ++ rest = batch ++ a :: rest := by
          rw [List.append_assoc, List.singleton_append]
        have hb1 : ((batch ++ [a]).map (·.identifier)).Nodup := by
          refine h1.sublist (List.Sublist.map _ ?_)
          rw [← heq]
          exact List.sublist_append_left _ _
        have hm1 : ∀ b ∈ batch ++ [a],
            snapshot.contains b.identifier = (storeIds store).contains b.identifier := by
          intro b hb
          apply h2
          rw [← heq]
          exact List.mem_append.mpr (Or.inl hb)
        obtain ⟨sT, sF, sIds⟩ := processBatch_spec (batch ++ [a]) snapshot store now hb1 hm1
        have hrest_nd : ((([] : List ParsedAlert) ++ rest).map (·.identifier)).Nodup := by
          rw [List.nil_append]
          refine h1.sublist (List.Sublist.map _ ?_)
          rw [← heq]
          exact List.sublist_append_right _ _
        have hdisj_sets : ∀ b ∈ rest, b.identifier ∉
            ((batch ++ [a]).filter fun x => !snapshot.contains x.identifier).map
              (·.identifier) := by
          intro b hb hbmem
          obtain ⟨c, hcf, hcid⟩ := List.mem_map.mp hbmem
          have hcmem : c ∈ batch ++ [a] := List.mem_of_mem_filter hcf
          have h1' : ((batch ++ [a]).map (·.identifier) ++ rest.map (·.identifier)).Nodup := by
            rw [← List.map_append, heq]
            exact h1
          rw [List.nodup_append] at h1'
          exact h1'.2.2 (hcid ▸ List.mem_map_of_mem _ hcmem) (List.mem_map_of_mem _ hb)
        have h2'' : ∀ b ∈ ([] : List ParsedAlert) ++ rest,
            snapshot.contains b.identifier =
              (storeIds (processBatch (batch ++ [a]) snapshot store now).store).contains
                b.identifier := by
          intro b hb
          rw [List.nil_append] at hb
          rw [sIds, contains_append_right_miss _ _ _ (hdisj_sets b hb)]
          exact h2 b (List.mem_append.mpr (Or.inr (List.mem_cons_of_mem _ hb)))
        have h3'' : (storeIds (processBatch (batch ++ [a]) snapshot store now).store).Nodup := by
          rw [sIds, List.nodup_append]
          refine ⟨h3, hb1.sublist ((List.filter_sublist _).map _), ?_⟩
          intro x hx hx2
          obtain ⟨c, hcf, hcid⟩ := List.mem_map.mp hx2
          obtain ⟨hcb, hcc⟩ := List.mem_filter.mp hcf
          rw [hm1 c hcb] at hcc
          rw [← hcid] at hx
          simp only [Bool.not_eq_true', contains_eq_mem_ids, decide_eq_false_iff_not] at hcc
          exact hcc hx
        obtain ⟨hT, hF, hN⟩ := ih snapshot []
          (processBatch (batch ++ [a]) snapshot store now).store
          (events ++ (processBatch (batch ++ [a]) snapshot store now).events)
          { counts with
            newCount := counts.newCount + (processBatch (batch ++ [a]) snapshot store now).newCount,
            updatedCount := counts.updatedCount +
              (processBatch (batch ++ [a]) snapshot store now).updatedCount,
            errorCount := counts.errorCount +
              (processBatch (batch ++ [a]) snapshot store now).errorCount } now
          hrest_nd h2'' h3''
        refine ⟨?_, ?_, hN⟩
        · intro b hb
          have hbsplit : b ∈ batch ++ [a] ∨ b ∈ rest := by
            rw [← heq] at hb
            rcases List.mem_append.mp hb with hx | hx
            · exact Or.inl hx
            · exact Or.inr hx
          rcases hbsplit with hbl | hbr
          · have hbni : b.identifier ∉ (([] : List ParsedAlert) ++ rest).map (·.identifier) := by
              rw [List.nil_append]
              intro hmem2
              have hnd2 : ((batch ++ [a]).map (·.identifier) ++
                  rest.map (·.identifier)).Nodup := by
                rw [← List.map_append, heq]
                exact h1
              rw [List.nodup_append] at hnd2
              exact hnd2.2.2 (List.mem_map_of_mem _ hbl) hmem2
            rw [hF b.identifier hbni]
            exact sT b hbl
          · exact hT b (by rw [List.nil_append]; exact hbr)
        · intro id hid
          have hid1 : id ∉ (([] : List ParsedAlert) ++ rest).map (·.identifier) := by
            rw [List.nil_append]
            intro hx
            apply hid
            rw [← heq, List.map_append, List.mem_append]
            exact Or.inr hx
          have hid2 : id ∉ (batch ++ [a]).map (·.identifier) := by
            intro hx
            apply hid
            rw [← heq, List.map_append, List.mem_append]
            exact Or.inl hx
          rw [hF id hid1, sF id hid2]
      · rw [if_neg hflush]
        have heq : (batch ++ [a]) ++ rest = batch ++ a :: rest := by
          rw [List.append_assoc, List.singleton_append]
        have h1' : (((batch ++ [a]) ++ rest).map (·.identifier)).Nodup := by
          rw [heq]
          exact h1
        have h2' : ∀ b ∈ (batch ++ [a]) ++ rest,
            snapshot.contains b.identifier = (storeIds store).contains b.identifier := by
          rw [heq]
          exact h2
        obtain ⟨hT, hF, hN⟩ := ih snapshot (batch ++ [a]) store events counts now h1' h2' h3
        refine ⟨?_, ?_, hN⟩
        · intro b hb
          exact hT b (by rw [heq]; exact hb)
        · intro id hid
          exact hF id (by rw [heq]; exact hid)

/-- Run-level corollary: after processAlertsBatch on a duplicate-free
alert list over a duplicate-free store, every alert reads back with its
reconciled core and the store stays duplicate free. -/
theorem processAlertsBatch_spec (alerts : List ParsedAlert) (store : List StoredAlert)
    (now : Int) (hA : (alerts.map (·.identifier)).Nodup) (hS : (storeIds store).Nodup) :
    (∀ a ∈ alerts,
      (lookupAlert (processAlertsBatch alerts store now).store a.identifier).map coreOf =
        some (a.identifier, a.sent, isAlertActive a now)) ∧
    (storeIds (processAlertsBatch alerts store now).store).Nodup := by
  obtain ⟨hT, _, hN⟩ := processLoop_spec alerts (storeIds store) [] store [] ⟨0, 0, 0, 0⟩ now
    (by simpa using hA) (fun a _ => rfl) hS
  exact ⟨fun a ha => hT a (by simpa using ha), hN⟩

/-- When every pending alert passes the skip test, the loop leaves the
store untouched, emits nothing and counts no new or updated alerts. -/
theorem processLoop_all_skip (alerts : List ParsedAlert) :
    ∀ (snapshot : List String) (store : List StoredAlert) (events : List AlertEvent)
      (counts : CycleCounts) (now : Int),
    (∀ a ∈ alerts, skipCheck snapshot store a now = true) →
    (processLoop alerts snapshot [] store events counts now).store = store ∧
    (processLoop alerts snapshot [] store events counts now).events = events ∧
    (processLoop alerts snapshot [] store events counts now).counts.newCount =
      counts.newCount ∧
    (processLoop alerts snapshot [] store events counts now).counts.updatedCount =
      counts.updatedCount := by
  induction alerts with
  | nil =>
    intro snapshot store events counts now _
    unfold processLoop
    exact ⟨rfl, rfl, rfl, rfl⟩
  | cons a rest ih =>
    intro snapshot store events counts now h
    unfold processLoop
    rw [if_pos (h a (List.mem_cons_self a rest))]
    exact ih snapshot store events _ now (fun b hb => h b (List.mem_cons_of_mem _ hb))

/-- The skip test succeeds on any alert whose stored core matches its
parsed data under an unchanged classification. -/
theorem skipCheck_of_core (store : List StoredAlert) (a : ParsedAlert) (now1 now2 : Int)
    (hcore : (lookupAlert store a.identifier).map coreOf =
      some (a.identifier, a.sent, isAlertActive a now1))
    (hclass : isAlertActive a now2 = isAlertActive a now1) :
    skipCheck (storeIds store) store a now2 = true := by
  rcases hl : lookupAlert store a.identifier with _ | ex
  · rw [hl] at hcore
    cases hcore
  · rw [hl] at hcore
    have hex : coreOf ex = (a.identifier, a.sent, isAlertActive a now1) := by
      simpa using hcore
    have hsent : ex.sent = a.sent := congrArg (fun p => p.2.1) hex
    have hact : ex.isActive = isAlertActive a now1 := congrArg (fun p => p.2.2) hex
    have hmem : a.identifier ∈ storeIds store := by
      have hexmem := List.mem_of_find?_eq_some hl
      have hexid : ex.identifier = a.identifier := by simpa using List.find?_some hl
      rw [← hexid]
      exact List.mem_map_of_mem _ hexmem
    simp only [skipCheck, hl, Bool.and_eq_true, decide_eq_true_eq]
    refine ⟨?_, hsent, ?_⟩
    · simp only [contains_eq_mem_ids, decide_eq_true_eq]
      exact hmem
    · rw [hact, hclass]

/-- C3 amended: reprocessing is idempotent provided no identifier occurs
twice in the parsed list (replaying one parse cycle satisfies this, since
repeats within a cycle are served from the response cache) and the store
is duplicate free, as the unique index guarantees.  Processing the same
list a second time, with the store unchanged in between and each active
classification unchanged, leaves the store unchanged, counts zero new
and zero updated alerts, emits no events, and the store holds no
duplicate records for any identifier. -/
theorem c3_amended (alerts : List ParsedAlert) (store0 : List StoredAlert)
    (now1 now2 : Int)
    (hA : (alerts.map (·.identifier)).Nodup)
    (hS : (storeIds store0).Nodup)
    (hclass : ∀ a ∈ alerts, isAlertActive a now2 = isAlertActive a now1) :
    (processAlertsBatch alerts (processAlertsBatch alerts store0 now1).store now2).store =
      (processAlertsBatch alerts store0 now1).store ∧
    (processAlertsBatch alerts (processAlertsBatch alerts store0 now1).store now2).events =
      [] ∧
    (processAlertsBatch alerts
        (processAlertsBatch alerts store0 now1).store now2).counts.newCount = 0 ∧
    (processAlertsBatch alerts
        (processAlertsBatch alerts store0 now1).store now2).counts.updatedCount = 0 ∧
    (storeIds (processAlertsBatch alerts store0 now1).store).Nodup := by
  obtain ⟨hT, hN⟩ := processAlertsBatch_spec alerts store0 now1 hA hS
  have hskip : ∀ a ∈ alerts,
      skipCheck (storeIds (processAlertsBatch alerts store0 now1).store)
        (processAlertsBatch alerts store0 now1).store a now2 = true := by
    intro a ha
    exact skipCheck_of_core _ a now1 now2 (hT a ha) (hclass a ha)
  obtain ⟨hs, he, hn, hu⟩ := processLoop_all_skip alerts
    (storeIds (processAlertsBatch alerts store0 now1).store)
    (processAlertsBatch alerts store0 now1).store [] ⟨0, 0, 0, 0⟩ now2 hskip
  exact ⟨hs, he, hn, hu, hN⟩

/-- C3 witness: a single alert processed twice at the same instant. -/
theorem c3_witness :
    (processAlertsBatch [⟨"A", 0, [100], []⟩]
        (processAlertsBatch [⟨"A", 0, [100], []⟩] [] 0).store 0).counts.newCount = 0 ∧
    (processAlertsBatch [⟨"A", 0, [100], []⟩]
        (processAlertsBatch [⟨"A", 0, [100], []⟩] [] 0).store 0).counts.updatedCount = 0 ∧
    (processAlertsBatch [⟨"A", 0, [100], []⟩]
        (processAlertsBatch [⟨"A", 0, [100], []⟩] [] 0).store 0).events = [] :=
  have h := c3_amended [⟨"A", 0, [100], []⟩] [] 0 0 (by simp) (by simp [storeIds])
    (fun a _ => rfl)
  ⟨h.2.2.1, h.2.2.2.1, h.2.1⟩

/-- C9 counterexample: an unclosed 5-point ring on which the validator is
not symmetric under reversal.  The first four points form a bowtie, so
the ring is invalid; the reversed ring inspects the other four points,
which form a simple quadrilateral, so it validates, and tryFixPolygonRing
returns it instead of null. -/
theorem c9_counterexample :
    isValidPolygonRing ([(0,0),(0,10),(10,0),(10,10),(5,20)] : List Point) = false ∧
    isValidPolygonRing (([(0,0),(0,10),(10,0),(10,10),(5,20)] : List Point).reverse) = true ∧
    tryFixPolygonRing ([(0,0),(0,10),(10,0),(10,10),(5,20)] : List Point) =
      some ([(5,20),(10,10),(10,0),(0,10),(0,0)] : List Point) := by
  with_unfolding_all decide

/-- Swapping the first two arguments of the orientation form negates
it. -/
theorem ccw_swap (a b c : Point) : ccw b a c = -ccw a b c := by
  unfold ccw
  ring

/-- The bounding-box test ignores the order of the segment endpoints. -/
theorem isPointOnSegment_comm (a b p : Point) :
    isPointOnSegment b a p = isPointOnSegment a b p := by
  simp only [isPointOnSegment, min_comm, max_comm]

/-- The intersection test ignores the orientation of the first
segment. -/
theorem doSegmentsIntersect_swap_left (p1 p2 p3 p4 : Point) :
    doSegmentsIntersect p2 p1 p3 p4 = doSegmentsIntersect p1 p2 p3 p4 := by
  have e1 : ccw p2 p1 p3 = -ccw p1 p2 p3 := ccw_swap p1 p2 p3
  have e2 : ccw p2 p1 p4 = -ccw p1 p2 p4 := ccw_swap p1 p2 p4
  apply Bool.eq_iff_iff.mpr
  simp only [doSegmentsIntersect, e1, e2, isPointOnSegment_comm, Bool.or_eq_true,
    Bool.and_eq_true, decide_eq_true_eq, neg_mul_neg, neg_eq_zero,
    mul_comm (ccw p3 p4 p2)]
  tauto

/-- The intersection test ignores the orientation of the second
segment. -/
theorem doSegmentsIntersect_swap_right (p1 p2 p3 p4 : Point) :
    doSegmentsIntersect p1 p2 p4 p3 = doSegmentsIntersect p1 p2 p3 p4 := by
  have e1 : ccw p4 p3 p1 = -ccw p3 p4 p1 := ccw_swap p3 p4 p1
  have e2 : ccw p4 p3 p2 = -ccw p3 p4 p2 := ccw_swap p3 p4 p2
  apply Bool.eq_iff_iff.mpr
  simp only [doSegmentsIntersect, e1, e2, isPointOnSegment_comm, Bool.or_eq_true,
    Bool.and_eq_true, decide_eq_true_eq, neg_mul_neg, neg_eq_zero,
    mul_comm (ccw p1 p2 p4)]
  tauto

/-- The intersection test ignores the order of the two segments. -/
theorem doSegmentsIntersect_comm (p1 p2 p3 p4 : Point) :
    doSegmentsIntersect p3 p4 p1 p2 = doSegmentsIntersect p1 p2 p3 p4 := by
  apply Bool.eq_iff_iff.mpr
  simp only [doSegmentsIntersect, Bool.or_eq_true, Bool.and_eq_true, decide_eq_true_eq]
  tauto

/-- Fully reversing both segments and their order preserves the
intersection test. -/
theorem doSegmentsIntersect_swap_both (a b c d : Point) :
    doSegmentsIntersect b a d c = doSegmentsIntersect c d a b := by
  rw [doSegmentsIntersect_swap_left, doSegmentsIntersect_swap_right,
    doSegmentsIntersect_comm]

/-- Indexing a reversed list with default, inside bounds. -/
theorem getD_reverse (l : List Point) (k : Nat) (hk : k < l.length) :
    l.reverse.getD k (0, 0) = l.getD (l.length - 1 - k) (0, 0) := by
  rw [List.getD_eq_getElem?_getD, List.getD_eq_getElem?_getD, List.getElem?_reverse hk]

/-- Each edge of a reversed closed ring is an edge of the original ring
with its endpoints swapped: edge k of the reversal corresponds to edge
n - 1 - k of the original. -/
theorem ringEdge_reverse (ring : List Point) (hm : 4 ≤ ring.length)
    (hcl : ring.getD 0 (0, 0) = ring.getD (ring.length - 1) (0, 0))
    (k : Nat) (hk : k < ring.length - 1) :
    ringEdge ring.reverse (ring.length - 1) k =
      ((ringEdge ring (ring.length - 1) (ring.length - 1 - 1 - k)).2,
       (ringEdge ring (ring.length - 1) (ring.length - 1 - 1 - k)).1) := by
  have hn3 : 3 ≤ ring.length - 1 := by omega
  unfold ringEdge
  by_cases hk0 : k = 0
  · subst hk0
    have h1 : (0 + 1) % (ring.length - 1) = 1 := by
      rw [Nat.mod_eq_of_lt]
      omega
    have h2 : ring.length - 1 - 1 - 0 = ring.length - 2 := by omega
    have h3 : (ring.length - 2 + 1) % (ring.length - 1) = 0 := by
      have : ring.length - 2 + 1 = ring.length - 1 := by omega
      rw [this, Nat.mod_self]
    rw [h1, h2, h3]
    rw [getD_reverse _ _ (by omega), getD_reverse _ _ (by omega)]
    have e1 : ring.length - 1 - 0 = ring.length - 1 := by omega
    have e2 : ring.length - 1 - 1 = ring.length - 2 := by omega
    rw [e1, e2, ← hcl]
  · by_cases hk1 : k = ring.length - 1 - 1
    · subst hk1
      have h1 : (ring.length - 1 - 1 + 1) % (ring.length - 1) = 0 := by
        have : ring.length - 1 - 1 + 1 = ring.length - 1 := by omega
        rw [this, Nat.mod_self]
      have h2 : ring.length - 1 - 1 - (ring.length - 1 - 1) = 0 := by omega
      have h3 : (0 + 1) % (ring.length - 1) = 1 := by
        rw [Nat.mod_eq_of_lt]
        omega
      rw [h1, h2, h3]
      rw [getD_reverse _ _ (by omega), getD_reverse _ _ (by omega)]
      have e1 : ring.length - 1 - (ring.length - 1 - 1) = 1 := by omega
      have e2 : ring.length - 1 - 0 = ring.length - 1 := by omega
      rw [e1, e2, ← hcl]
    · have hkmid : 1 ≤ k ∧ k < ring.length - 1 - 1 := by
        constructor <;> omega
      have h1 : (k + 1) % (ring.length - 1) = k + 1 := by
        rw [Nat.mod_eq_of_lt]
        omega
      have h2 : (ring.length - 1 - 1 - k + 1) % (ring.length - 1) =
          ring.length - 1 - 1 - k + 1 := by
        rw [Nat.mod_eq_of_lt]
        omega
      rw [h1, h2]
      rw [getD_reverse _ _ (by omega), getD_reverse _ _ (by omega)]
      have e1 : ring.length - 1 - k = ring.length - 1 - 1 - k + 1 := by omega
      have e2 : ring.length - 1 - (k + 1) = ring.length - 1 - 1 - k := by omega
      rw [e1, e2]

/-- Existential characterisation of the self-intersection scan. -/
theorem hasSelfIntersection_iff (ring : List Point) :
    hasSelfIntersection ring = true ↔
      ∃ i, i < ring.length - 1 ∧ ∃ j, j < ring.length - 1 ∧
        checkedEdgePair (ring.length - 1) i j = true ∧
        doSegmentsIntersect (ringEdge ring (ring.length - 1) i).1
          (ringEdge ring (ring.length - 1) i).2
          (ringEdge ring (ring.length - 1) j).1
          (ringEdge ring (ring.length - 1) j).2 = true := by
  simp only [hasSelfIntersection, List.any_eq_true, List.mem_range, Bool.and_eq_true]

/-- The skip set of the scan is symmetric under the reversal
relabelling. -/
theorem checkedEdgePair_reverse (n i j : Nat) (hn : 3 ≤ n) (hi : i < n) (hj : j < n)
    (h : checkedEdgePair n i j = true) :
    checkedEdgePair n (n - 1 - j) (n - 1 - i) = true := by
  simp only [checkedEdgePair, Bool.and_eq_true, Bool.not_eq_true', Bool.and_eq_false_iff,
    decide_eq_true_eq, decide_eq_false_iff_not] at h ⊢
  obtain ⟨h1, h2⟩ := h
  constructor
  · omega
  · rcases h2 with h2 | h2
    · right
      omega
    · left
      omega

/-- A self-intersection found in the reversed closed ring is present in
the original ring. -/
theorem hasSelfIntersection_reverse_imp (ring : List Point) (hm : 4 ≤ ring.length)
    (hcl : ring.getD 0 (0, 0) = ring.getD (ring.length - 1) (0, 0)) :
    hasSelfIntersection ring.reverse = true → hasSelfIntersection ring = true := by
  intro h
  rw [hasSelfIntersection_iff] at h ⊢
  rw [List.length_reverse] at h
  obtain ⟨i, hi, j, hj, hchk, hint⟩ := h
  refine ⟨ring.length - 1 - 1 - j, by omega, ring.length - 1 - 1 - i, by omega, ?_, ?_⟩
  · have := checkedEdgePair_reverse (ring.length - 1) i j (by omega) hi hj hchk
    have e1 : ring.length - 1 - 1 - j = ring.length - 1 - 1 - j := rfl
    exact this
  · rw [ringEdge_reverse ring hm hcl i hi, ringEdge_reverse ring hm hcl j hj] at hint
    rw [doSegmentsIntersect_swap_both] at hint
    exact hint

/-- Reversal symmetry of the ring validator on closed rings. -/
theorem isValidPolygonRing_reverse (ring : List Point)
    (hcl : ring.head? = ring.getLast?) :
    isValidPolygonRing ring.reverse = isValidPolygonRing ring := by
  by_cases hm : 4 ≤ ring.length
  · have hne : ring ≠ [] := by
      intro h
      rw [h] at hm
      simp at hm
    have hclD : ring.getD 0 (0, 0) = ring.getD (ring.length - 1) (0, 0) := by
      rw [List.getD_eq_getElem?_getD, List.getD_eq_getElem?_getD,
        ← List.head?_eq_getElem?, ← List.getLast?_eq_getElem?, hcl]
    have hclR : ring.reverse.getD 0 (0, 0) =
        ring.reverse.getD (ring.reverse.length - 1) (0, 0) := by
      rw [List.length_reverse, getD_reverse _ _ (by omega), getD_reverse _ _ (by omega)]
      have e1 : ring.length - 1 - 0 = ring.length - 1 := by omega
      have e2 : ring.length - 1 - (ring.length - 1) = 0 := by omega
      rw [e1, e2, hclD]
    have h1 : hasSelfIntersection ring.reverse = true → hasSelfIntersection ring = true :=
      hasSelfIntersection_reverse_imp ring hm hclD
    have h2 : hasSelfIntersection ring = true → hasSelfIntersection ring.reverse = true := by
      intro hx
      have := hasSelfIntersection_reverse_imp ring.reverse
        (by simpa using hm) (by simpa using hclR)
      rw [List.reverse_reverse] at this
      exact this hx
    unfold isValidPolygonRing
    rw [List.length_reverse]
    have hbool : hasSelfIntersection ring.reverse = hasSelfIntersection ring := by
      cases hx : hasSelfIntersection ring
      · cases hy : hasSelfIntersection ring.reverse
        · rfl
        · rw [h1 hy] at hx
          exact hx
      · exact h2 hx
    rw [hbool]
  · unfold isValidPolygonRing
    rw [List.length_reverse]
    have hd : decide (4 ≤ ring.length) = false := by simpa using hm
    rw [hd]
    simp

/-- C9 amended: on closed rings (first point equal to last point, the
shape every ring reaching the validator from convertToGeoJSON has after
the closing step) the validator is symmetric under reversal, and
consequently tryFixPolygonRing returns null for every closed ring that
fails validation: the reversal repair can never turn a self-intersecting
closed ring into a valid one.  On unclosed rings the symmetry fails, as
the counterexample shows. -/
theorem c9_amended (ring : List Point) (hcl : ring.head? = ring.getLast?) :
    isValidPolygonRing ring.reverse = isValidPolygonRing ring ∧
    (isValidPolygonRing ring = false → tryFixPolygonRing ring = none) := by
  refine ⟨isValidPolygonRing_reverse ring hcl, fun hval => ?_⟩
  unfold tryFixPolygonRing
  by_cases hlen : ring.length < 4
  · rw [if_pos hlen]
  · rw [if_neg hlen, if_neg]
    rw [isValidPolygonRing_reverse ring hcl, hval]
    simp

/-- C9 witness: the closed bowtie ring of the self-intersection scenario
of the specification. -/
theorem c9_witness :
    isValidPolygonRing (([(0,0),(0,10),(10,0),(10,10),(0,0)] : List Point).reverse) =
      isValidPolygonRing ([(0,0),(0,10),(10,0),(10,10),(0,0)] : List Point) ∧
    tryFixPolygonRing ([(0,0),(0,10),(10,0),(10,10),(0,0)] : List Point) = none :=
  have h := c9_amended ([(0,0),(0,10),(10,0),(10,10),(0,0)] : List Point)
    (by with_unfolding_all rfl)
  ⟨h.1, h.2 (by with_unfolding_all rfl)⟩
